import Mathlib

/-!
Verification of the `TDS_Solver` repository's intelligent assignment router
(`intelligent_assignment_router.py`) and HTTP endpoint (`main.py`).

Every definition is a shallow embedding of the corresponding Python source:
pure computations become Lean functions, fallible code returns `Except`,
machine/IEEE numbers are modelled as `Nat`/`Int`/`ℚ` (exact arithmetic),
and external effects (the Gemini classifier, the filesystem, subprocesses)
are passed in explicitly as parameters.
-/

namespace TDSSolver

/-! ## Router dispatch (`IntelligentAssignmentRouter.route_question`)

The router sends the question to the classifier, normalises the reply with
`.strip().upper()`, and dispatches through a fixed `if/elif` chain, each
branch testing `label in classification` (Python substring containment).
-/

/-- The processing methods reachable from `route_question`'s dispatch chain. -/
inductive Handler
  | zipCsvExtract
  | httpieRequest
  | npxPrettierSha256
  | googleSheetsFormula
  | jsonSort
  | multiCursorJson
  | unicodeData
  | fileComparison
  | excelFormula
  | generalProcessing
  | dateRange
  | cliCommand
  | fileReplacementSha256
  | fileAttributes
  | sqlSales
  | markdownDoc
  | imageCompression
  | dockerImagePush
deriving DecidableEq, Repr

/-- Outcome of the dispatch: either a call to a specific handler, or the
error envelope `{"status": "error", "message": "Unable to determine processing method"}`. -/
inductive RouteResult
  | handler (h : Handler)
  | unableToDetermine
deriving DecidableEq, Repr

/-- Contiguous-sublist test: does `needle` occur somewhere in `hay`? -/
def listInfixOf (needle : List Char) : List Char → Bool
  | [] => needle.isEmpty
  | c :: rest => needle.isPrefixOf (c :: rest) || listInfixOf needle rest

/-- Python's `needle in hay` substring test, on the underlying character lists. -/
def strIn (needle hay : String) : Bool :=
  listInfixOf needle.data hay.data

/-- The `if/elif` dispatch chain of `route_question` (lines 83-126 of
`intelligent_assignment_router.py`), applied to the already normalised
classification string. -/
def routeClassification (c : String) : RouteResult :=
  if strIn "ZIP_CSV_EXTRACT" c then .handler .zipCsvExtract
  else if strIn "HTTPIE_REQUEST" c then .handler .httpieRequest
  else if strIn "NPX_PRETTIER_SHA256" c then .handler .npxPrettierSha256
  else if strIn "GOOGLE_SHEETS_FORMULA" c then .handler .googleSheetsFormula
  else if strIn "JSON_SORT" c then .handler .jsonSort
  else if strIn "MULTI_CURSOR_JSON" c then .handler .multiCursorJson
  else if strIn "UNICODE_DATA_PROCESSING" c then .handler .unicodeData
  else if strIn "FILE_COMPARISON" c then .handler .fileComparison
  else if strIn "EXCEL_FORMULA_PROCESSING" c then .handler .excelFormula
  else if strIn "GENERAL_PROCESSING" c || strIn "UNKNOWN" c then .handler .generalProcessing
  else if strIn "DATE_RANGE_CALCULATION" c then .handler .dateRange
  else if strIn "CLI_COMMAND_SIMULATION" c then .handler .cliCommand
  else if strIn "FILE_REPLACEMENT_SHA256" c then .handler .fileReplacementSha256
  else if strIn "FILE_ATTRIBUTES_LISTING" c then .handler .fileAttributes
  else if strIn "SQL_SALES_CALCULATION" c then .handler .sqlSales
  else if strIn "MARKDOWN_DOCUMENTATION" c then .handler .markdownDoc
  else if strIn "IMAGE_COMPRESSION" c then .handler .imageCompression
  else if strIn "DOCKER_IMAGE_PUSH" c then .handler .dockerImagePush
  else .unableToDetermine

/-- Python `str.strip` whitespace (space, tab, newline, return, vertical tab, form feed). -/
def pyIsSpace (c : Char) : Bool :=
  c = ' ' || c = '\t' || c = '\n' || c = '\r' || c = '\x0b' || c = '\x0c'

/-- Python `str.strip()`: drop leading and trailing whitespace. -/
def pyStrip (s : String) : String :=
  ⟨((s.data.dropWhile pyIsSpace).reverse.dropWhile pyIsSpace).reverse⟩

/-- Python `str.upper()` (on the ASCII labels at issue). -/
def pyUpper (s : String) : String :=
  ⟨s.data.map Char.toUpper⟩

/-- `classification = classification_response.text.strip().upper()` followed by
the dispatch chain. -/
def routeDispatch (reply : String) : RouteResult :=
  routeClassification (pyUpper (pyStrip reply))

/-- The dispatch chain as an ordered association list: label substring tested,
and the handler its branch calls.  `GENERAL_PROCESSING` and `UNKNOWN` share
one branch (`_general_processing`) and hence appear consecutively. -/
def routeChain : List (String × Handler) :=
  [("ZIP_CSV_EXTRACT", .zipCsvExtract),
   ("HTTPIE_REQUEST", .httpieRequest),
   ("NPX_PRETTIER_SHA256", .npxPrettierSha256),
   ("GOOGLE_SHEETS_FORMULA", .googleSheetsFormula),
   ("JSON_SORT", .jsonSort),
   ("MULTI_CURSOR_JSON", .multiCursorJson),
   ("UNICODE_DATA_PROCESSING", .unicodeData),
   ("FILE_COMPARISON", .fileComparison),
   ("EXCEL_FORMULA_PROCESSING", .excelFormula),
   ("GENERAL_PROCESSING", .generalProcessing),
   ("UNKNOWN", .generalProcessing),
   ("DATE_RANGE_CALCULATION", .dateRange),
   ("CLI_COMMAND_SIMULATION", .cliCommand),
   ("FILE_REPLACEMENT_SHA256", .fileReplacementSha256),
   ("FILE_ATTRIBUTES_LISTING", .fileAttributes),
   ("SQL_SALES_CALCULATION", .sqlSales),
   ("MARKDOWN_DOCUMENTATION", .markdownDoc),
   ("IMAGE_COMPRESSION", .imageCompression),
   ("DOCKER_IMAGE_PUSH", .dockerImagePush)]

/-- Reference dispatcher: the first chain entry whose label occurs in the
classification wins; with no match, the "unable to determine" envelope. -/
def chainDispatch (c : String) : RouteResult :=
  match routeChain.find? (fun p => strIn p.1 c) with
  | some p => .handler p.2
  | none => .unableToDetermine

/-- The if/elif chain over an explicit list of (label, handler) branches. -/
def dispatchAux (c : String) : List (String × Handler) → RouteResult
  | [] => .unableToDetermine
  | p :: rest => if strIn p.1 c then .handler p.2 else dispatchAux c rest

/-! ## SQL sales calculation (`_process_sql_sales_calculation`)

With no database file the handler creates a `tickets(type, units, price)`
table with five fixed sample rows and runs
`SELECT SUM(units * price) FROM tickets WHERE LOWER(TRIM(type)) = 'gold'`.
SQLite `REAL` arithmetic is modelled exactly, over `ℚ`.
-/

/-- SQLite `LOWER(TRIM(type))`: strip leading/trailing spaces, ASCII-lowercase. -/
def sqlNormType (s : String) : String :=
  ⟨(((s.data.dropWhile (· = ' ')).reverse.dropWhile (· = ' ')).reverse).map Char.toLower⟩

/-- The sample rows inserted when no database file is provided
(`(type, units, price)`). -/
def sampleTickets : List (String × Nat × ℚ) :=
  [("silver", 422, 1.26),
   ("GOLD", 400, 0.63),
   ("GOLD", 460, 0.9),
   ("GOLD", 487, 1.25),
   ("BRONZE", 395, 0.74)]

/-- `SUM(units * price)` over the rows with `LOWER(TRIM(type)) = 'gold'`:
the handler's `answer` field in the no-database case. -/
def sqlSalesNoFileAnswer : ℚ :=
  ((sampleTickets.filter (fun r => sqlNormType r.1 == "gold")).map
    (fun r => (r.2.1 : ℚ) * r.2.2)).sum

/-! ## Date-range calculation (`_process_date_range_calculation`)

The handler extracts two `YYYY-MM-DD` dates, hard-codes `day_to_count = 2`
(Wednesday), and counts matching days with a day-by-day `while` loop from
the start date up to and including the end date.  `datetime` dates are
embedded by their proleptic-Gregorian ordinal (`date.toordinal`,
0001-01-01 = day 1).
-/

/-- Gregorian leap year, as in the `datetime` module. -/
def pyIsLeap (y : Nat) : Bool :=
  y % 4 == 0 && (!(y % 100 == 0) || y % 400 == 0)

/-- Days in month `m` of year `y`. -/
def daysInMonth (y m : Nat) : Nat :=
  if m = 2 then (if pyIsLeap y then 29 else 28)
  else if m = 4 ∨ m = 6 ∨ m = 9 ∨ m = 11 then 30
  else 31

/-- Days in year `y` before the first of month `m`. -/
def daysBeforeMonth (y m : Nat) : Nat :=
  ((List.range' 1 (m - 1)).map (daysInMonth y)).sum

/-- `date(y, m, d).toordinal()`: days since 0000-12-31 in the proleptic
Gregorian calendar (0001-01-01 is day 1). -/
def toOrdinal (y m d : Nat) : Nat :=
  365 * (y - 1) + (y - 1) / 4 - (y - 1) / 100 + (y - 1) / 400 + daysBeforeMonth y m + d

/-- `date.weekday()` (Monday = 0) of the day with ordinal `o`;
day 1 (0001-01-01) was a Monday. -/
def pyWeekday (o : Nat) : Nat := (o + 6) % 7

/-- The handler's `while current_date <= end_date` loop, one recursive call
per day; `n` is the number of days still to visit. -/
def countDayAux (current : Nat) : Nat → Nat
  | 0 => 0
  | n + 1 => (if pyWeekday current = 2 then 1 else 0) + countDayAux (current + 1) n

/-- Number of Wednesdays counted by the loop running from ordinal `start`
to ordinal `finish` inclusive. -/
def countWednesdays (start finish : Nat) : Nat :=
  countDayAux start (finish + 1 - start)

/-- `_process_date_range_calculation`'s `answer` field, as a function of the
two parsed dates. -/
def process_date_range_calculation (y1 m1 d1 y2 m2 d2 : Nat) : Nat :=
  countWednesdays (toOrdinal y1 m1 d1) (toOrdinal y2 m2 d2)

/-! ## Google-Sheets formula (`_process_google_sheets_formula`)

The handler extracts the first four integers of the formula as the
`SEQUENCE(rows, cols, start, step)` parameters, hard-codes the
`ARRAY_CONSTRAIN` parameters to 1 row and 10 columns, and sums the
constrained array.
-/

/-- The handler's simulation of the `SEQUENCE` function:
entry `(row, col)` is `start + row*step + col*step`. -/
def google_sheets_sequence (rows cols start step : Nat) : List (List Nat) :=
  (List.range rows).map fun row => (List.range cols).map fun col =>
    start + row * step + col * step

/-- The handler's simulation of `ARRAY_CONSTRAIN`: keep the first `rows`
rows and first `cols` columns. -/
def google_sheets_array_constrain (array : List (List Nat)) (rows cols : Nat) :
    List (List Nat) :=
  (array.take rows).map fun row => row.take cols

/-- The handler's `answer` field: `sum(sum(row) for row in constrained)` with
the constrain parameters fixed at 1 row, 10 columns. -/
def process_google_sheets_formula (rows cols start step : Nat) : Nat :=
  ((google_sheets_array_constrain (google_sheets_sequence rows cols start step) 1 10).map
    List.sum).sum

/-! ## Python `sorted` and `min`

`sorted(l, key=f)` is Python's stable sort by `f`; it is embedded as
insertion sort by the key (a stable sort, hence extensionally equal).
`min(l, key=f)` returns the first element of `l` attaining the minimal key
(strict-`<` comparison keeps the earlier element on ties); on an empty list
it raises, modelled as `none`.
-/

/-- Python's stable `sorted(l, key=key)`. -/
def pySorted {α β : Type} [LinearOrder β] (key : α → β) (l : List α) : List α :=
  @List.insertionSort α (fun a b => key a ≤ key b) (fun a b => inferInstance) l

/-- One step of Python's `min(l, key=key)` scan. -/
def pyMinStep {α β : Type} [LinearOrder β] (key : α → β) (acc y : α) : α :=
  if key y < key acc then y else acc

/-- Python's `min(l, key=key)`: the first element with minimal key. -/
def pyMin {α β : Type} [LinearOrder β] (key : α → β) : List α → Option α
  | [] => none
  | x :: xs => some (xs.foldl (pyMinStep key) x)

/-! ## Image compression (`_process_image_compression`)

The handler builds four compression strategies in a fixed order (output
sizes depend on PIL, so they enter the model as parameters), filters those
with `0 < size < 1500`, falls back to `min(strategies, key=size)` when the
filter is empty, and returns the first entry of the resulting list.
-/

/-- One compression strategy's outcome (the base64 payload is elided:
only `method` and `size` matter to the selection logic). -/
structure CompStrategy where
  method : String
  size : Nat
deriving DecidableEq, Repr

/-- The `compression_strategies` list, in the order the code appends to it. -/
def compressionStrategies (dithered bw minimal resized : Nat) : List CompStrategy :=
  [⟨"Dithered 2-Color Palette", dithered⟩,
   ⟨"Black and White", bw⟩,
   ⟨"Minimal PNG", minimal⟩,
   ⟨"Tiny Resize", resized⟩]

/-- `valid_compressions`: strategies with `size < 1500 and size > 0`. -/
def validCompressions (strategies : List CompStrategy) : List CompStrategy :=
  strategies.filter (fun c => decide (c.size < 1500) && decide (0 < c.size))

/-- `best_compression = valid_compressions[0]`, with the
`min(compression_strategies, key=size)` fallback when no strategy qualifies. -/
def selectCompression (strategies : List CompStrategy) : Option CompStrategy :=
  match validCompressions strategies with
  | [] => pyMin (fun c => c.size) strategies
  | c :: _ => some c

/-- `_process_image_compression`'s selected strategy, as a function of the
four computed output sizes. -/
def process_image_compression (dithered bw minimal resized : Nat) : Option CompStrategy :=
  selectCompression (compressionStrategies dithered bw minimal resized)

/-! ## JSON sort (`_process_json_sort`)

The handler sorts a hard-coded 16-record sample array according to the
classifier's sorting instruction (`.strip().lower()`, substring-matched). -/

/-- One record of the hard-coded sample array. -/
structure PersonRec where
  name : String
  age : Nat
deriving DecidableEq, Repr

/-- The hard-coded `json_data` sample array. -/
def jsonData : List PersonRec :=
  [⟨"Alice", 80⟩, ⟨"Bob", 52⟩, ⟨"Charlie", 1⟩,
   ⟨"David", 10⟩, ⟨"Emma", 34⟩, ⟨"Frank", 17⟩,
   ⟨"Grace", 79⟩, ⟨"Henry", 61⟩, ⟨"Ivy", 66⟩,
   ⟨"Jack", 25⟩, ⟨"Karen", 21⟩, ⟨"Liam", 69⟩,
   ⟨"Mary", 78⟩, ⟨"Nora", 25⟩, ⟨"Oscar", 12⟩,
   ⟨"Paul", 66⟩]

/-- Python `str.lower()` (on the ASCII instructions at issue). -/
def pyLower (s : String) : String :=
  ⟨s.data.map Char.toLower⟩

/-- The sorted array `_process_json_sort` serialises into its `answer`
field, as a function of the classifier's sorting-instruction reply:
`sorted(json_data, key=...)` under the handler's substring dispatch. -/
def process_json_sort_sorted (sortReply : String) : List PersonRec :=
  let instr := pyLower (pyStrip sortReply)
  if strIn "age" instr && strIn "name" instr then
    pySorted (fun x => toLex (x.age, x.name)) jsonData
  else if strIn "age" instr then
    pySorted (fun x => x.age) jsonData
  else if strIn "name" instr then
    pySorted (fun x => x.name) jsonData
  else jsonData

/-! ## Excel formula (`_process_excel_formula` and its inner `excel_take`)

The handler extracts two brace-delimited integer arrays, simulates
`SORTBY`/`TAKE` with `excel_take(data_array, sort_order, 1, 6)`, and the
`result` field is `sum(...)` of what `excel_take` returns.
-/

/-- `sort_order[x[0]] if x[0] < len(sort_order) else float('inf')`:
the sorting key of `excel_take`, with `+inf` as `⊤`. -/
def excelKey (sortOrder : List Int) (x : Nat × Int) : WithTop Int :=
  match sortOrder.get? x.1 with
  | some v => (v : WithTop Int)
  | none => ⊤

/-- `excel_take(array, sort_order, take_rows, take_cols)`: enumerate the
array, stable-sort the `(index, value)` pairs by the sort-order key, take
`take_rows` pairs, project the values, take `take_cols` of them. -/
def excel_take (array sortOrder : List Int) (takeRows takeCols : Nat) : List Int :=
  let indexed := array.enum
  let sortedArr := pySorted (excelKey sortOrder) indexed
  let takenValues := (sortedArr.take takeRows).map (fun item => item.2)
  takenValues.take takeCols

/-- `_process_excel_formula`'s `result` field:
`sum(excel_take(data_array, sort_order, 1, 6))`. -/
def process_excel_formula (dataArray sortOrder : List Int) : Int :=
  (excel_take dataArray sortOrder 1 6).sum

/-! ## Exception structure (`route_question` and the handlers)

External effects (the classifier call, filesystem, subprocesses, network)
can raise; a handler body is therefore a `PyResult Envelope`: either a
returned envelope or a raised exception carrying `str(e)`.  Each handler of
`IntelligentAssignmentRouter` except `_process_json_sort` wraps its whole
body in `try: ... except Exception as e: return <error envelope>`;
`route_question` wraps the classification call and the dispatched handler
call in its own `try/except`.
-/

/-- A result envelope, as far as the error-handling policy is concerned
(per-handler payload fields such as `answer` are elided). -/
structure Envelope where
  status : String
  message : Option String := none
deriving DecidableEq, Repr

/-- A Python computation that either returns a value or raises an exception
(retaining `str(e)`). -/
abbrev PyResult (a : Type) := Except String a

/-- `try: return body except Exception as e: return handler(str(e))`. -/
def pyTry (body : PyResult Envelope) (handler : String -> Envelope) : PyResult Envelope :=
  match body with
  | .ok v => .ok v
  | .error e => .ok (handler e)

/-- The message prefix of each handler's own `except Exception` clause
(empty prefix: the clause returns `str(e)` alone).  `_process_json_sort`
has no such clause; its entry is unused. -/
def handlerErrPrefix : Handler -> String
  | .zipCsvExtract => ""
  | .httpieRequest => "Error processing httpie request: "
  | .npxPrettierSha256 => "Error processing npx prettier command: "
  | .googleSheetsFormula => "Error processing Google Sheets formula: "
  | .jsonSort => ""
  | .multiCursorJson => ""
  | .unicodeData => ""
  | .fileComparison => ""
  | .excelFormula => "Error processing Excel formula: "
  | .generalProcessing => "General processing error: "
  | .dateRange => "Error processing date range calculation: "
  | .cliCommand => "Error processing CLI command simulation: "
  | .fileReplacementSha256 => "Error processing file replacement: "
  | .fileAttributes => "Error processing file attributes: "
  | .sqlSales => "Error processing SQL sales calculation: "
  | .markdownDoc => "Error generating Markdown: "
  | .imageCompression => "Error compressing image: "
  | .dockerImagePush => "Error processing Docker image push: "

/-- A handler other than `_process_json_sort`: its whole body inside `try`,
any exception converted into an error envelope with that handler's message. -/
def guardedHandler (h : Handler) (body : PyResult Envelope) : PyResult Envelope :=
  pyTry body (fun e => { status := "error", message := some (handlerErrPrefix h ++ e) })

/-- `_process_json_sort`: the only handler whose body has no `try/except`.
An exception from the classifier call (`model.generate_content`) propagates
to the caller; on success the handler returns
`{"status": "success", "answer": <sorted array>, "sort_method": instr}`
(the sorted array itself is `process_json_sort_sorted`; payload elided here). -/
def process_json_sort (sortReply : PyResult String) : PyResult Envelope :=
  match sortReply with
  | .error e => .error e
  | .ok _ => .ok { status := "success" }

/-- The handler call `route_question` makes once the classification picked a
branch: `_process_json_sort` runs unguarded on the sort-instruction reply,
every other handler runs its (abstracted) body under its own guard. -/
def runHandler (h : Handler) (sortReply : PyResult String)
    (bodies : Handler -> PyResult Envelope) : PyResult Envelope :=
  match h with
  | .jsonSort => process_json_sort sortReply
  | h => guardedHandler h (bodies h)

/-- `route_question`: the classification call, dispatch and handler call all
inside the outer `try`, whose `except Exception as e` returns
`{"status": "error", "message": str(e)}`. -/
def route_question (classifierReply : PyResult String) (sortReply : PyResult String)
    (bodies : Handler -> PyResult Envelope) : PyResult Envelope :=
  pyTry
    (match classifierReply with
     | .error e => .error e
     | .ok reply =>
       match routeDispatch reply with
       | .handler h => runHandler h sortReply bodies
       | .unableToDetermine =>
           .ok { status := "error", message := some "Unable to determine processing method" })
    (fun e => { status := "error", message := some e })

/-! ## File replacement and SHA-256 (`_process_file_replacement_sha256`)

The handler extracts the uploaded ZIP into a scratch directory, replaces
every `[Ii][Ii][Tt][Mm]` occurrence with `IIT Madras` in every file, then
simulates `cat * | sha256sum`: it concatenates the modified contents with
the files visited in `sorted(files)` order and hashes the UTF-8 bytes.
An archive of text files extracted into one directory is a flat list of
`(filename, contents)` pairs.
-/

/-- `re.sub(r'[Ii][Ii][Tt][Mm]', 'IIT Madras', text)`: scan left to right,
non-overlapping; each match consumes the four matched characters. -/
def replaceIITMAux : List Char -> List Char
  | c1 :: c2 :: c3 :: c4 :: rest =>
    if (c1 = 'I' \/ c1 = 'i') /\ (c2 = 'I' \/ c2 = 'i') /\ (c3 = 'T' \/ c3 = 't') /\
        (c4 = 'M' \/ c4 = 'm') then
      "IIT Madras".data ++ replaceIITMAux rest
    else c1 :: replaceIITMAux (c2 :: c3 :: c4 :: rest)
  | other => other

/-- The handler's `replace_iitm` on strings. -/
def replace_iitm (s : String) : String := String.mk (replaceIITMAux s.data)

/-- All sixteen case variants of the four-letter string `IITM`. -/
def iitmVariants : List String :=
  ["IITM", "IITm", "IItM", "IItm", "IiTM", "IiTm", "IitM", "Iitm",
   "iITM", "iITm", "iItM", "iItm", "iiTM", "iiTm", "iitM", "iitm"]

/-- UTF-8 encoding of one character, as byte values (`str.encode('utf-8')`). -/
def utf8Char (c : Char) : List Nat :=
  let n := c.toNat
  if n < 128 then [n]
  else if n < 2048 then [192 + n / 64, 128 + n % 64]
  else if n < 65536 then [224 + n / 4096, 128 + n / 64 % 64, 128 + n % 64]
  else [240 + n / 262144, 128 + n / 4096 % 64, 128 + n / 64 % 64, 128 + n % 64]

/-- UTF-8 encoding of a string, as byte values. -/
def utf8Encode (s : String) : List Nat := (s.data.map utf8Char).join

/-! SHA-256 (FIPS 180-4), over byte lists, words as `Nat` modulo `2^32`. -/

/-- Truncate to a 32-bit word. -/
def mod32 (n : Nat) : Nat := n % 4294967296

/-- Rotate a 32-bit word right by `k`. -/
def rotr (k w : Nat) : Nat := w / 2 ^ k + w % 2 ^ k * 2 ^ (32 - k)

/-- Shift a 32-bit word right by `k`. -/
def shr (k w : Nat) : Nat := w / 2 ^ k

def sigmaBig0 (x : Nat) : Nat := rotr 2 x ^^^ rotr 13 x ^^^ rotr 22 x

def sigmaBig1 (x : Nat) : Nat := rotr 6 x ^^^ rotr 11 x ^^^ rotr 25 x

def sigmaSmall0 (x : Nat) : Nat := rotr 7 x ^^^ rotr 18 x ^^^ shr 3 x

def sigmaSmall1 (x : Nat) : Nat := rotr 17 x ^^^ rotr 19 x ^^^ shr 10 x

def chFn (x y z : Nat) : Nat := (x &&& y) ^^^ ((x ^^^ 4294967295) &&& z)

def majFn (x y z : Nat) : Nat := (x &&& y) ^^^ (x &&& z) ^^^ (y &&& z)

/-- The 64 SHA-256 round constants (FIPS 180-4, in decimal). -/
def kConsts : List Nat :=
  [1116352408, 1899447441, 3049323471, 3921009573, 961987163,
   1508970993, 2453635748, 2870763221, 3624381080, 310598401,
   607225278, 1426881987, 1925078388, 2162078206, 2614888103,
   3248222580, 3835390401, 4022224774, 264347078, 604807628,
   770255983, 1249150122, 1555081692, 1996064986, 2554220882,
   2821834349, 2952996808, 3210313671, 3336571891, 3584528711,
   113926993, 338241895, 666307205, 773529912, 1294757372,
   1396182291, 1695183700, 1986661051, 2177026350, 2456956037,
   2730485921, 2820302411, 3259730800, 3345764771, 3516065817,
   3600352804, 4094571909, 275423344, 430227734, 506948616,
   659060556, 883997877, 958139571, 1322822218, 1537002063,
   1747873779, 1955562222, 2024104815, 2227730452, 2361852424,
   2428436474, 2756734187, 3204031479, 3329325298]

/-- The initial hash value (FIPS 180-4, in decimal). -/
def initH : List Nat :=
  [1779033703, 3144134277, 1013904242, 2773480762,
   1359893119, 2600822924, 528734635, 1541459225]

/-- `k` bytes of `n`, big-endian. -/
def toBytesBE (k n : Nat) : List Nat :=
  (List.range k).map (fun i => n / 2 ^ (8 * (k - 1 - i)) % 256)

/-- Append `0x80`, zero padding to 56 mod 64, and the 64-bit big-endian
bit length. -/
def padMessage (msg : List Nat) : List Nat :=
  msg ++ [128] ++ List.replicate ((119 - msg.length % 64) % 64) 0 ++
    toBytesBE 8 (8 * msg.length % 2 ^ 64)

/-- Split into 64-byte blocks. -/
def chunks64 (l : List Nat) : List (List Nat) :=
  if h : l.isEmpty then [] else l.take 64 :: chunks64 (l.drop 64)
termination_by l.length
decreasing_by
  simp only [List.isEmpty_iff] at h
  have : l.length ≠ 0 := fun hl => h (List.length_eq_zero.mp hl)
  simp only [List.length_drop]
  omega

/-- Big-endian 32-bit words of a block. -/
def bytesToWords : List Nat -> List Nat
  | b1 :: b2 :: b3 :: b4 :: rest =>
    (b1 * 16777216 + b2 * 65536 + b3 * 256 + b4) :: bytesToWords rest
  | _ => []

/-- One message-schedule extension step: append
`sigma1(w[n-2]) + w[n-7] + sigma0(w[n-15]) + w[n-16]`. -/
def extendStep (ws : List Nat) : List Nat :=
  ws ++ [mod32 (sigmaSmall1 (ws.getD (ws.length - 2) 0) + ws.getD (ws.length - 7) 0 +
    sigmaSmall0 (ws.getD (ws.length - 15) 0) + ws.getD (ws.length - 16) 0)]

/-- Extend the 16 block words by `k` further schedule words. -/
def extendWords (ws : List Nat) : Nat -> List Nat
  | 0 => ws
  | k + 1 => extendWords (extendStep ws) k

/-- One compression round on the state `[a, b, c, d, e, f, g, h]`. -/
def roundStep (st : List Nat) (kw : Nat × Nat) : List Nat :=
  match st with
  | [a, b, c, d, e, f, g, h] =>
    let t1 := mod32 (h + sigmaBig1 e + chFn e f g + kw.1 + kw.2)
    let t2 := mod32 (sigmaBig0 a + majFn a b c)
    [mod32 (t1 + t2), a, b, c, mod32 (d + t1), e, f, g]
  | other => other

/-- Compress one 64-byte block into the running hash. -/
def processBlock (hs : List Nat) (block : List Nat) : List Nat :=
  let ws := extendWords (bytesToWords block) 48
  let st := (kConsts.zip ws).foldl roundStep hs
  List.zipWith (fun x y => mod32 (x + y)) hs st

/-- The eight final hash words of a byte message. -/
def sha256Words (msg : List Nat) : List Nat :=
  (chunks64 (padMessage msg)).foldl processBlock initH

/-- Lowercase hex digit. -/
def hexDigit (n : Nat) : Char := "0123456789abcdef".data.getD n '0'

/-- Eight hex digits of a 32-bit word, most significant first. -/
def wordToHex (w : Nat) : List Char :=
  (List.range 8).map (fun i => hexDigit (w / 2 ^ (28 - 4 * i) % 16))

/-- `hashlib.sha256(bytes).hexdigest()`. -/
def sha256Hex (msg : List Nat) : String :=
  String.mk ((sha256Words msg).map wordToHex).join

/-- `_process_file_replacement_sha256` on an extracted flat archive:
pass 1 rewrites every file through `replace_iitm` in place; pass 2 reads the
files back `for filename in sorted(files)`, concatenates their contents and
returns the SHA-256 hex digest of the UTF-8 bytes. -/
def process_file_replacement_sha256 (files : List (String × String)) : String :=
  sha256Hex (utf8Encode (String.join
    ((pySorted (fun f : String × String => f.1)
        (files.map (fun f => (f.1, replace_iitm f.2)))).map (fun f => f.2))))

/-! ## The HTTP endpoint (`main.py`, `process_question`)

A request carries a question and an optional upload.  The endpoint saves
the upload under `/tmp`, calls `get_gemini_response` (which, given a file
path, extracts it into `/tmp/extracted`), deletes the scratch file and the
`/tmp/extracted` directory, and only then returns its JSON response; any
`HTTPException` instead propagates to FastAPI.  Filesystem actions are
recorded as an event trace; scratch locations are assumed fresh per request.
-/

/-- Filesystem events of one request. -/
inductive Ev
  | saveTemp        -- write the upload to `/tmp/<filename>`
  | callGemini      -- `get_gemini_response` (extracts into `/tmp/extracted` when a file path is given)
  | unlinkTemp      -- `os.unlink(temp_file_path)`
  | rmtreeExtracted -- `shutil.rmtree("/tmp/extracted")`
deriving DecidableEq, Repr

/-- How the endpoint finishes: its single `return {"answer": answer}`, or a
propagating exception. -/
inductive EndpointOutcome
  | ret (answer : String)
  | exn
deriving DecidableEq, Repr

/-- The `POST /api/` endpoint body: `questionNonempty` is the `if not
question` guard, `hasFile` whether an upload is present, `saveOk` whether
writing it under `/tmp` succeeds, `genResult` the outcome of
`get_gemini_response`.  Returns the filesystem trace and the outcome. -/
def process_question (questionNonempty hasFile saveOk : Bool)
    (genResult : Except String String) : List Ev × EndpointOutcome :=
  if !questionNonempty then ([], .exn)
  else if hasFile then
    if saveOk then
      match genResult with
      | .error _ => ([.saveTemp, .callGemini], .exn)
      | .ok ans => ([.saveTemp, .callGemini, .unlinkTemp, .rmtreeExtracted], .ret ans)
    else ([], .exn)
  else
    match genResult with
    | .error _ => ([.callGemini], .exn)
    | .ok ans => ([.callGemini], .ret ans)


end TDSSolver

namespace TDSSolver

theorem dispatchAux_eq_find? (c : String) : ∀ l : List (String × Handler),
    dispatchAux c l = (match l.find? (fun p => strIn p.1 c) with
      | some p => RouteResult.handler p.2
      | none => RouteResult.unableToDetermine)
  | [] => rfl
  | p :: rest => by
    cases h : strIn p.1 c <;>
      simp [dispatchAux, List.find?, h, dispatchAux_eq_find? c rest]

theorem ite_or_split (a b : Bool) (x y : RouteResult) :
    (if a || b then x else y) = if a then x else if b then x else y := by
  cases a <;> cases b <;> rfl

theorem routeClassification_eq_chainDispatch (c : String) :
    routeClassification c = chainDispatch c := by
  have h : routeClassification c = dispatchAux c routeChain := by
    simp only [routeChain, dispatchAux, routeClassification]
    rw [ite_or_split]
  rw [h, chainDispatch, dispatchAux_eq_find?]

end TDSSolver

/-- **C1.** `route_question` dispatches on the classifier's reply (stripped and
upper-cased) by substring match in a fixed if/elif order: (1) a reply equal to
a category label routes to exactly that label's handler; (2) every reply is
routed to the branch of the first chain entry whose label occurs in it
(so a reply containing several labels resolves to the earliest branch); and
(3) a reply containing zero recognised label substrings yields the
"Unable to determine processing method" error envelope. -/
theorem C1_route_dispatch :
    (∀ p ∈ TDSSolver.routeChain, TDSSolver.routeDispatch p.1 = .handler p.2) ∧
    (∀ reply : String, TDSSolver.routeDispatch reply =
      TDSSolver.chainDispatch (TDSSolver.pyUpper (TDSSolver.pyStrip reply))) ∧
    (∀ c : String, (∀ p ∈ TDSSolver.routeChain, ¬ TDSSolver.strIn p.1 c) →
      TDSSolver.routeClassification c = .unableToDetermine) := by
  refine ⟨by decide, fun reply => TDSSolver.routeClassification_eq_chainDispatch _, ?_⟩
  intro c h
  rw [TDSSolver.routeClassification_eq_chainDispatch]
  unfold TDSSolver.chainDispatch
  rw [List.find?_eq_none.mpr (by simpa using h)]

/-- Witness for C1 at concrete replies: the exact label `"JSON_SORT"` routes to
the JSON-sort handler, and an unrecognised reply yields the error envelope. -/
theorem C1_route_dispatch_witness :
    TDSSolver.routeDispatch "JSON_SORT" = .handler .jsonSort ∧
    TDSSolver.routeClassification "I CANNOT CLASSIFY THIS" = .unableToDetermine :=
  ⟨C1_route_dispatch.1 ("JSON_SORT", .jsonSort) (by decide),
   C1_route_dispatch.2.2 "I CANNOT CLASSIFY THIS" (by decide)⟩

namespace TDSSolver

theorem filtered_sampleTickets :
    sampleTickets.filter (fun r => sqlNormType r.1 == "gold") =
      [("GOLD", 400, 0.63), ("GOLD", 460, 0.9), ("GOLD", 487, 1.25)] := rfl

theorem sqlSalesNoFileAnswer_eq : sqlSalesNoFileAnswer = (1274.75 : ℚ) := by
  unfold sqlSalesNoFileAnswer
  rw [filtered_sampleTickets]
  norm_num

theorem countDayAux_eq_sum : ∀ (n start : Nat),
    countDayAux start n =
      ∑ i ∈ Finset.range n, (if pyWeekday (start + i) = 2 then 1 else 0)
  | 0, start => by simp [countDayAux]
  | n + 1, start => by
    rw [Finset.sum_range_succ']
    have hcongr : ∀ i ∈ Finset.range n,
        (if pyWeekday (start + 1 + i) = 2 then 1 else 0) =
          (if pyWeekday (start + (i + 1)) = 2 then 1 else 0) := by
      intro i _
      have h : start + 1 + i = start + (i + 1) := by omega
      rw [h]
    rw [countDayAux, countDayAux_eq_sum n (start + 1), Finset.sum_congr rfl hcongr,
      Nat.add_zero]
    omega

theorem countWednesdays_eq_card (start finish : Nat) :
    countWednesdays start finish =
      ((Finset.Icc start finish).filter (fun o => pyWeekday o = 2)).card := by
  rw [countWednesdays, countDayAux_eq_sum, ← Nat.Ico_succ_right,
    Finset.card_filter, Finset.sum_Ico_eq_sum_range]

end TDSSolver

/-- **C3 (counterexample).** The claim states that the no-database sample sum
`400*0.63 + 460*0.9 + 487*1.25` equals `1277.75`; on the code's sample data the
handler's answer is not `1277.75`. -/
theorem C3_sql_sales_counterexample :
    TDSSolver.sqlSalesNoFileAnswer ≠ (1277.75 : ℚ) := by
  rw [TDSSolver.sqlSalesNoFileAnswer_eq]
  norm_num

/-- **C3 (amended).** With no database file, the SQL sales handler sums
`units * price` over exactly the sample rows whose `type` equals `"gold"`
after trimming and lowercasing (the three `GOLD` rows), and the answer is
`400*0.63 + 460*0.9 + 487*1.25 = 1274.75` (not 1277.75). -/
theorem C3_sql_sales_amended :
    TDSSolver.sqlSalesNoFileAnswer = 400 * 0.63 + 460 * 0.9 + 487 * 1.25 ∧
    TDSSolver.sqlSalesNoFileAnswer = (1274.75 : ℚ) := by
  rw [TDSSolver.sqlSalesNoFileAnswer_eq]
  norm_num

/-- **C4.** For any two parsed dates, the date-range handler's answer is the
number of Wednesdays (`weekday() == 2`) among the days between the two dates,
both endpoints included (day-by-day iteration); in particular for the range
2022-01-01 to 2022-01-31 the answer is 4. -/
theorem C4_date_range_wednesdays :
    (∀ y1 m1 d1 y2 m2 d2 : Nat,
      TDSSolver.process_date_range_calculation y1 m1 d1 y2 m2 d2 =
        ((Finset.Icc (TDSSolver.toOrdinal y1 m1 d1) (TDSSolver.toOrdinal y2 m2 d2)).filter
          (fun o => TDSSolver.pyWeekday o = 2)).card) ∧
    TDSSolver.process_date_range_calculation 2022 1 1 2022 1 31 = 4 := by
  refine ⟨fun y1 m1 d1 y2 m2 d2 => TDSSolver.countWednesdays_eq_card _ _, ?_⟩
  decide

/-- **C6 (counterexample).** The claim's formula `10*start + 45*step` does not
hold for every question with four parseable integers: with
`SEQUENCE(1, 3, 5, 7)` the handler sums only the 3 existing columns
(`5 + 12 + 19 = 36`), not `10*5 + 45*7 = 365`. -/
theorem C6_google_sheets_counterexample :
    TDSSolver.process_google_sheets_formula 1 3 5 7 ≠ 10 * 5 + 45 * 7 := by decide

/-- **C6 (amended).** For extracted parameters with `rows ≥ 1` and `cols ≥ 10`,
the Google-Sheets handler simulates `SEQUENCE`/`ARRAY_CONSTRAIN` with the
constrain parameters fixed at 1 row and 10 columns and returns the sum of the
first row's first 10 values, `10*start + 45*step`; for
`SEQUENCE(100, 100, 15, 7)` this is 465. -/
theorem C6_google_sheets_amended (rows cols start step : Nat)
    (hrows : 1 ≤ rows) (hcols : 10 ≤ cols) :
    TDSSolver.process_google_sheets_formula rows cols start step =
      10 * start + 45 * step := by
  obtain ⟨r, rfl⟩ : ∃ r, rows = r + 1 := ⟨rows - 1, by omega⟩
  unfold TDSSolver.process_google_sheets_formula
    TDSSolver.google_sheets_array_constrain TDSSolver.google_sheets_sequence
  rw [List.range_succ_eq_map]
  simp only [List.map_cons, List.take_succ_cons, List.take_zero]
  rw [← List.map_take, List.take_range, Nat.min_eq_left hcols]
  have h10 : List.range 10 = [0, 1, 2, 3, 4, 5, 6, 7, 8, 9] := rfl
  rw [h10]
  simp only [List.map_cons, List.map_nil, List.sum_cons, List.sum_nil]
  ring

/-- Witness for C6: at the parameters `SEQUENCE(100, 100, 15, 7)` of the
spec's example, the handler returns `10*15 + 45*7 = 465`. -/
theorem C6_google_sheets_amended_witness :
    TDSSolver.process_google_sheets_formula 100 100 15 7 = 465 := by
  have h := C6_google_sheets_amended 100 100 15 7 (by norm_num) (by norm_num)
  rw [h]

namespace TDSSolver

theorem key_foldl_pyMinStep_le_init {α β : Type} [LinearOrder β] (key : α → β) :
    ∀ (xs : List α) (x : α), key (xs.foldl (pyMinStep key) x) ≤ key x
  | [], _ => le_refl _
  | y :: ys, x => by
    simp only [List.foldl, pyMinStep]
    split
    · exact le_trans (key_foldl_pyMinStep_le_init key ys y) (le_of_lt (by assumption))
    · exact key_foldl_pyMinStep_le_init key ys x

theorem foldl_pyMinStep_le_mem {α β : Type} [LinearOrder β] (key : α → β) :
    ∀ (xs : List α) (x y : α), y ∈ xs → key (xs.foldl (pyMinStep key) x) ≤ key y
  | z :: zs, x, y, h => by
    simp only [List.foldl]
    rcases List.mem_cons.mp h with rfl | hy
    · refine le_trans (key_foldl_pyMinStep_le_init key zs _) ?_
      simp only [pyMinStep]
      split
      · exact le_refl _
      · exact le_of_not_lt (by assumption)
    · exact foldl_pyMinStep_le_mem key zs _ y hy

theorem foldl_pyMinStep_mem {α β : Type} [LinearOrder β] (key : α → β) :
    ∀ (xs : List α) (x : α),
      xs.foldl (pyMinStep key) x = x ∨ xs.foldl (pyMinStep key) x ∈ xs
  | [], _ => Or.inl rfl
  | z :: zs, x => by
    simp only [List.foldl]
    rcases foldl_pyMinStep_mem key zs (pyMinStep key x z) with h | h
    · rw [h]
      simp only [pyMinStep]
      split
      · exact Or.inr (List.mem_cons_self _ _)
      · exact Or.inl rfl
    · exact Or.inr (List.mem_cons_of_mem _ h)

theorem foldl_pyMinStep_cons {α β : Type} [LinearOrder β] (key : α → β) :
    ∀ (t : List α) (a b : α), key a ≤ key b →
      t.foldl (pyMinStep key) a =
        if key a ≤ key (t.foldl (pyMinStep key) b) then a else t.foldl (pyMinStep key) b
  | [], a, b, hab => by simp [hab]
  | y :: t, a, b, hab => by
    simp only [List.foldl, pyMinStep]
    by_cases hya : key y < key a
    · have hyb : key y < key b := lt_of_lt_of_le hya hab
      rw [if_pos hya, if_pos hyb]
      have hlt : ¬ key a ≤ key (List.foldl (pyMinStep key) y t) :=
        not_le.mpr (lt_of_le_of_lt (key_foldl_pyMinStep_le_init key t y) hya)
      rw [if_neg hlt]
    · have hay : key a ≤ key y := le_of_not_lt hya
      rw [if_neg hya]
      by_cases hyb : key y < key b
      · rw [if_pos hyb]
        exact foldl_pyMinStep_cons key t a y hay
      · rw [if_neg hyb]
        exact foldl_pyMinStep_cons key t a b hab

theorem pySorted_perm {α β : Type} [LinearOrder β] (key : α → β) (l : List α) :
    List.Perm (pySorted key l) l :=
  @List.perm_insertionSort α (fun a b => key a ≤ key b) (fun a b => inferInstance) l

theorem pySorted_sorted {α β : Type} [LinearOrder β] (key : α → β) (l : List α) :
    List.Sorted (fun a b => key a ≤ key b) (pySorted key l) := by
  haveI : IsTotal α (fun a b => key a ≤ key b) := ⟨fun a b => le_total (key a) (key b)⟩
  haveI : IsTrans α (fun a b => key a ≤ key b) := ⟨fun a b c hab hbc => le_trans hab hbc⟩
  exact List.sorted_insertionSort (fun a b => key a ≤ key b) l

theorem head?_pySorted_eq_pyMin {α β : Type} [LinearOrder β] (key : α → β) :
    ∀ l : List α, (pySorted key l).head? = pyMin key l
  | [] => rfl
  | x :: l => by
    have ih := head?_pySorted_eq_pyMin key l
    unfold pySorted at ih ⊢
    simp only [List.insertionSort]
    rcases hs : @List.insertionSort α (fun a b => key a ≤ key b)
        (fun a b => inferInstance) l with _ | ⟨m, s'⟩
    · have hnil : l = [] := by
        have hp := @List.perm_insertionSort α (fun a b => key a ≤ key b)
          (fun a b => inferInstance) l
        rw [hs] at hp
        exact (List.Perm.nil_eq hp).symm
      subst hnil
      rfl
    · rw [hs] at ih
      cases l with
      | nil => simp [List.insertionSort] at hs
      | cons h t =>
        have hm : m = t.foldl (pyMinStep key) h := by
          simpa [pyMin] using ih
        simp only [List.orderedInsert, pyMin, List.foldl]
        by_cases hhx : key h < key x
        · have hstep : pyMinStep key x h = h := if_pos hhx
          have hfold : t.foldl (pyMinStep key) (pyMinStep key x h) = m := by
            rw [hstep, ← hm]
          have hxm : ¬ key x ≤ key m := by
            rw [hm]
            exact not_le.mpr (lt_of_le_of_lt (key_foldl_pyMinStep_le_init key t h) hhx)
          rw [if_neg hxm, hfold]
          simp
        · have hxh : key x ≤ key h := le_of_not_lt hhx
          have hstep : pyMinStep key x h = x := if_neg hhx
          rw [hstep, foldl_pyMinStep_cons key t x h hxh, ← hm]
          by_cases hxm : key x ≤ key m
          · rw [if_pos hxm, if_pos hxm]
            simp
          · rw [if_neg hxm, if_neg hxm]
            simp

theorem pyMin_spec {α β : Type} [LinearOrder β] (key : α → β) (l : List α) (m : α)
    (h : pyMin key l = some m) : m ∈ l ∧ ∀ y ∈ l, key m ≤ key y := by
  cases l with
  | nil => simp [pyMin] at h
  | cons x xs =>
    simp only [pyMin, Option.some.injEq] at h
    subst h
    constructor
    · rcases foldl_pyMinStep_mem key xs x with h | h
      · rw [h]
        exact List.mem_cons_self _ _
      · exact List.mem_cons_of_mem _ h
    · intro y hy
      rcases List.mem_cons.mp hy with rfl | hy
      · exact key_foldl_pyMinStep_le_init key xs y
      · exact foldl_pyMinStep_le_mem key xs x y hy

end TDSSolver

/-- **C7.** The image-compression handler computes four strategies in a fixed
order (2-colour dithered palette, black-and-white, optimized full PNG, 10x10
thumbnail) and returns the first strategy whose output size is strictly below
1500 bytes and strictly positive; if none qualifies it returns the strategy
with the globally smallest output size (earliest on ties, as Python `min`). -/
theorem C7_image_compression (dithered bw minimal resized : Nat) :
    (∀ c, (TDSSolver.compressionStrategies dithered bw minimal resized).find?
        (fun c => decide (c.size < 1500) && decide (0 < c.size)) = some c →
      TDSSolver.process_image_compression dithered bw minimal resized = some c) ∧
    ((TDSSolver.compressionStrategies dithered bw minimal resized).find?
        (fun c => decide (c.size < 1500) && decide (0 < c.size)) = none →
      ∃ c, TDSSolver.process_image_compression dithered bw minimal resized = some c ∧
        c ∈ TDSSolver.compressionStrategies dithered bw minimal resized ∧
        ∀ x ∈ TDSSolver.compressionStrategies dithered bw minimal resized,
          c.size ≤ x.size) := by
  constructor
  · intro c hc
    unfold TDSSolver.process_image_compression TDSSolver.selectCompression
    cases hv : TDSSolver.validCompressions
        (TDSSolver.compressionStrategies dithered bw minimal resized) with
    | nil =>
      exfalso
      have hh := List.filter_head? (fun c => decide (c.size < 1500) && decide (0 < c.size))
        (TDSSolver.compressionStrategies dithered bw minimal resized)
      rw [TDSSolver.validCompressions] at hv
      rw [hv, hc] at hh
      exact Option.noConfusion hh
    | cons d rest =>
      have hh := List.filter_head? (fun c => decide (c.size < 1500) && decide (0 < c.size))
        (TDSSolver.compressionStrategies dithered bw minimal resized)
      rw [TDSSolver.validCompressions] at hv
      rw [hv, hc] at hh
      simpa using hh
  · intro hnone
    unfold TDSSolver.process_image_compression TDSSolver.selectCompression
    have hh := List.filter_head? (fun c => decide (c.size < 1500) && decide (0 < c.size))
      (TDSSolver.compressionStrategies dithered bw minimal resized)
    rw [hnone] at hh
    have hv : TDSSolver.validCompressions
        (TDSSolver.compressionStrategies dithered bw minimal resized) = [] := by
      rw [TDSSolver.validCompressions]
      exact List.head?_eq_none_iff.mp hh
    rw [hv]
    obtain ⟨m, hm⟩ : ∃ m, TDSSolver.pyMin (fun c : TDSSolver.CompStrategy => c.size)
        (TDSSolver.compressionStrategies dithered bw minimal resized) = some m := ⟨_, rfl⟩
    obtain ⟨hmem, hle⟩ := TDSSolver.pyMin_spec _ _ _ hm
    exact ⟨m, hm, hmem, hle⟩

/-- Witness for C7 at concrete sizes: with sizes `(2000, 1400, 900, 50)` the
first qualifying strategy (black-and-white, 1400 bytes) is returned; with
sizes `(2000, 1600, 1500, 1500)` none qualifies and the globally smallest
(optimized full PNG, 1500 bytes, earliest of the tie) is returned. -/
theorem C7_image_compression_witness :
    TDSSolver.process_image_compression 2000 1400 900 50 =
      some ⟨"Black and White", 1400⟩ ∧
    TDSSolver.process_image_compression 2000 1600 1500 1500 =
      some ⟨"Minimal PNG", 1500⟩ := by
  constructor
  · exact (C7_image_compression 2000 1400 900 50).1 ⟨"Black and White", 1400⟩ (by decide)
  · obtain ⟨c, hc, hmem, hmin⟩ := (C7_image_compression 2000 1600 1500 1500).2 (by decide)
    have hval : TDSSolver.process_image_compression 2000 1600 1500 1500 =
        some ⟨"Minimal PNG", 1500⟩ := by decide
    exact hval

/-- **C8.** When the JSON-sort handler's sorting instruction (stripped,
lowercased) mentions `age` but not `name`, the handler's answer array is a
permutation of the hard-coded input array whose `age` values appear in
non-decreasing order. -/
theorem C8_json_sort_by_age (reply : String)
    (hage : TDSSolver.strIn "age" (TDSSolver.pyLower (TDSSolver.pyStrip reply)) = true)
    (hname : TDSSolver.strIn "name" (TDSSolver.pyLower (TDSSolver.pyStrip reply)) = false) :
    List.Perm (TDSSolver.process_json_sort_sorted reply) TDSSolver.jsonData ∧
    List.Sorted (· ≤ ·) ((TDSSolver.process_json_sort_sorted reply).map
      (fun p => p.age)) := by
  have hres : TDSSolver.process_json_sort_sorted reply =
      TDSSolver.pySorted (fun x => x.age) TDSSolver.jsonData := by
    simp [TDSSolver.process_json_sort_sorted, hage, hname]
  rw [hres]
  refine ⟨TDSSolver.pySorted_perm _ _, ?_⟩
  have hs := TDSSolver.pySorted_sorted (fun x : TDSSolver.PersonRec => x.age)
    TDSSolver.jsonData
  exact List.Pairwise.map _ (fun a b h => h) hs

/-- Witness for C8 at the concrete instruction `"Sort by age (ascending)"`:
the answer is a permutation of the sample array with non-decreasing ages. -/
theorem C8_json_sort_by_age_witness :
    List.Perm (TDSSolver.process_json_sort_sorted "Sort by age (ascending)")
      TDSSolver.jsonData ∧
    List.Sorted (· ≤ ·)
      ((TDSSolver.process_json_sort_sorted "Sort by age (ascending)").map
        (fun p => p.age)) :=
  C8_json_sort_by_age "Sort by age (ascending)" (by decide) (by decide)

/-- **C10.** In the Excel-formula handler, `excel_take` is called with
`take_rows = 1`, so it returns a one-element list, and the handler's `result`
field equals the single value of the data array whose sort-order key is
minimal (ties broken by original position, `+inf` key beyond the sort-order
array) — not a sum of six sorted values. -/
theorem C10_excel_take_single (dataArray sortOrder : List Int)
    (hne : dataArray ≠ []) :
    (TDSSolver.excel_take dataArray sortOrder 1 6).length = 1 ∧
    ∃ p : Nat × Int,
      TDSSolver.pyMin (TDSSolver.excelKey sortOrder) dataArray.enum = some p ∧
      TDSSolver.process_excel_formula dataArray sortOrder = p.2 := by
  have henum : dataArray.enum ≠ [] := by
    intro h
    apply hne
    have hlen := congrArg List.length h
    rw [List.enum_length] at hlen
    exact List.length_eq_zero.mp hlen
  cases hs : TDSSolver.pySorted (TDSSolver.excelKey sortOrder) dataArray.enum with
  | nil =>
    exfalso
    have hp := TDSSolver.pySorted_perm (TDSSolver.excelKey sortOrder) dataArray.enum
    rw [hs] at hp
    exact henum (List.Perm.nil_eq hp).symm
  | cons m rest =>
    have hmin : TDSSolver.pyMin (TDSSolver.excelKey sortOrder) dataArray.enum = some m := by
      rw [← TDSSolver.head?_pySorted_eq_pyMin, hs]
      rfl
    refine ⟨?_, m, hmin, ?_⟩
    · simp [TDSSolver.excel_take, hs]
    · simp [TDSSolver.process_excel_formula, TDSSolver.excel_take, hs]

/-- Witness for C10 at `data = [1, 7, 5]`, `sort_order = [3, 1, 2]`: the
minimal key 1 sits at index 1, so the result is the single value 7. -/
theorem C10_excel_take_single_witness :
    ([1, 7, 5] : List Int) ≠ [] ∧
    (TDSSolver.excel_take [1, 7, 5] [3, 1, 2] 1 6).length = 1 ∧
    TDSSolver.process_excel_formula [1, 7, 5] [3, 1, 2] = 7 := by
  have h := C10_excel_take_single [1, 7, 5] [3, 1, 2] (by decide)
  refine ⟨by decide, h.1, ?_⟩
  obtain ⟨p, hp, hv⟩ := h.2
  have hpc : TDSSolver.pyMin (TDSSolver.excelKey [3, 1, 2]) ([1, 7, 5] : List Int).enum =
      some (1, 7) := by decide
  have hep : some ((1 : Nat), (7 : Int)) = some p := hpc.symm.trans hp
  have hp17 : p = (1, 7) := (Option.some.inj hep).symm
  rw [hp17] at hv
  exact hv

namespace TDSSolver

theorem pyTry_isOk (body : PyResult Envelope) (f : String → Envelope) :
    ∃ env, pyTry body f = .ok env := by
  cases body with
  | ok v => exact ⟨v, rfl⟩
  | error e => exact ⟨f e, rfl⟩

theorem orderedInsert_map_of_key_eq {α β : Type} [LinearOrder β] (key : α → β)
    (m : α → α) (hkey : ∀ x, key (m x) = key x) (x : α) :
    ∀ s : List α,
      @List.orderedInsert α (fun a b => key a ≤ key b) (fun a b => inferInstance)
          (m x) (s.map m) =
        (@List.orderedInsert α (fun a b => key a ≤ key b) (fun a b => inferInstance)
          x s).map m
  | [] => rfl
  | y :: s => by
    simp only [List.map_cons, List.orderedInsert]
    by_cases hxy : key x ≤ key y
    · rw [if_pos (show key (m x) ≤ key (m y) by rw [hkey, hkey]; exact hxy),
        if_pos hxy]
      rfl
    · rw [if_neg (show ¬ key (m x) ≤ key (m y) by rw [hkey, hkey]; exact hxy),
        if_neg hxy, List.map_cons, orderedInsert_map_of_key_eq key m hkey x s]

theorem pySorted_map_of_key_eq {α β : Type} [LinearOrder β] (key : α → β)
    (m : α → α) (hkey : ∀ x, key (m x) = key x) :
    ∀ l : List α, pySorted key (l.map m) = (pySorted key l).map m
  | [] => rfl
  | x :: l => by
    have ih := pySorted_map_of_key_eq key m hkey l
    unfold pySorted at ih ⊢
    simp only [List.map_cons, List.insertionSort]
    rw [ih]
    exact orderedInsert_map_of_key_eq key m hkey x _

end TDSSolver

/-- **C2 (counterexample).** Not every handler converts an exception raised
inside it into an error envelope: `_process_json_sort` has no `try/except`,
so an exception from its classifier call propagates to the caller instead
of being returned as an envelope. -/
theorem C2_exception_guard_counterexample :
    TDSSolver.process_json_sort (Except.error "boom") = Except.error "boom" := rfl

/-- **C2 (amended).** Every handler of the router except `_process_json_sort`
wraps its body in a single broad exception guard: whatever its body does it
returns an envelope (never propagates), and when the body raises it returns
an envelope with status `"error"` and that handler's message.
`_process_json_sort` propagates instead, but `route_question`'s own outer
guard compensates: `route_question` always returns an envelope, and an
exception inside the JSON-sort branch surfaces as the generic
`{"status": "error", "message": str(e)}` envelope. -/
theorem C2_exception_guard_amended :
    (∀ h : TDSSolver.Handler, h ≠ .jsonSort → ∀ body : TDSSolver.PyResult TDSSolver.Envelope,
      ∃ env, TDSSolver.guardedHandler h body = .ok env) ∧
    (∀ h : TDSSolver.Handler, h ≠ .jsonSort → ∀ e : String,
      TDSSolver.guardedHandler h (Except.error e) =
        .ok ⟨"error", some (TDSSolver.handlerErrPrefix h ++ e)⟩) ∧
    (∀ classifierReply sortReply : TDSSolver.PyResult String,
      ∀ bodies : TDSSolver.Handler → TDSSolver.PyResult TDSSolver.Envelope,
      ∃ env, TDSSolver.route_question classifierReply sortReply bodies = .ok env) ∧
    (∀ e : String, ∀ bodies : TDSSolver.Handler → TDSSolver.PyResult TDSSolver.Envelope,
      ∀ reply : String, TDSSolver.routeDispatch reply = .handler .jsonSort →
      TDSSolver.route_question (Except.ok reply) (Except.error e) bodies =
        .ok ⟨"error", some e⟩) := by
  refine ⟨?_, ?_, ?_, ?_⟩
  · intro h hne body
    exact TDSSolver.pyTry_isOk _ _
  · intro h hne e
    cases h <;> first | exact absurd rfl hne | rfl
  · intro classifierReply sortReply bodies
    exact TDSSolver.pyTry_isOk _ _
  · intro e bodies reply hroute
    simp only [TDSSolver.route_question, hroute, TDSSolver.runHandler,
      TDSSolver.process_json_sort, TDSSolver.pyTry]

/-- Witness for C2 (amended) at concrete inputs: the httpie handler converts
a raised `"boom"` into its own error envelope, and a classification reply of
`"JSON_SORT"` whose sort-instruction call raises `"boom"` makes
`route_question` return the generic error envelope. -/
theorem C2_exception_guard_amended_witness :
    TDSSolver.guardedHandler .httpieRequest (Except.error "boom") =
      .ok ⟨"error", some ("Error processing httpie request: " ++ "boom")⟩ ∧
    TDSSolver.route_question (Except.ok "JSON_SORT") (Except.error "boom")
      (fun _ => Except.ok ⟨"success", none⟩) = .ok ⟨"error", some "boom"⟩ := by
  constructor
  · exact C2_exception_guard_amended.2.1 .httpieRequest (by decide) "boom"
  · exact C2_exception_guard_amended.2.2.2 "boom" (fun _ => Except.ok ⟨"success", none⟩)
      "JSON_SORT" (by decide)

/-- **C5.** For every flat archive of text files, the file-replacement
SHA-256 handler returns the SHA-256 hex digest of the UTF-8 bytes of the
concatenation of the files' contents, visiting files in sorted-filename
order, each content having every case variant of the four-letter string
`IITM` replaced by `IIT Madras` (all sixteen variants rewrite to
`IIT Madras`). -/
theorem C5_file_replacement_sha256 :
    (∀ files : List (String × String),
      TDSSolver.process_file_replacement_sha256 files =
        TDSSolver.sha256Hex (TDSSolver.utf8Encode (String.join
          ((TDSSolver.pySorted (fun f : String × String => f.1) files).map
            (fun f => TDSSolver.replace_iitm f.2))))) ∧
    (TDSSolver.iitmVariants.map TDSSolver.replace_iitm).all
      (fun r => r == "IIT Madras") = true := by
  constructor
  · intro files
    unfold TDSSolver.process_file_replacement_sha256
    rw [TDSSolver.pySorted_map_of_key_eq (fun f : String × String => f.1)
      (fun f => (f.1, TDSSolver.replace_iitm f.2)) (fun x => rfl) files]
    rw [List.map_map]
    rfl
  · decide

/-- **C9.** For every request carrying an uploaded file, on every path on
which the endpoint returns its JSON response the trace is exactly: save the
upload under `/tmp`, call the model, delete the scratch file, delete
`/tmp/extracted` — so the file is persisted before processing, and both the
scratch file and `/tmp/extracted` are deleted after the call and before the
return. -/
theorem C9_endpoint_cleanup (saveOk : Bool) (genResult : Except String String)
    (tr : List TDSSolver.Ev) (ans : String)
    (hret : TDSSolver.process_question true true saveOk genResult =
      (tr, .ret ans)) :
    tr = [.saveTemp, .callGemini, .unlinkTemp, .rmtreeExtracted] ∧
    tr.indexOf .saveTemp < tr.indexOf .callGemini ∧
    tr.indexOf .callGemini < tr.indexOf .unlinkTemp ∧
    tr.indexOf .callGemini < tr.indexOf .rmtreeExtracted ∧
    TDSSolver.Ev.unlinkTemp ∈ tr ∧ TDSSolver.Ev.rmtreeExtracted ∈ tr := by
  cases saveOk with
  | false => simp [TDSSolver.process_question] at hret
  | true =>
    cases genResult with
    | error e => simp [TDSSolver.process_question] at hret
    | ok a =>
      simp only [TDSSolver.process_question, Bool.not_true, Bool.false_eq_true,
        if_false, ite_false, ite_true, if_true] at hret
      injection hret with h1 h2
      subst h1
      exact ⟨rfl, by decide, by decide, by decide, by decide, by decide⟩

/-- Witness for C9 at a concrete successful request with an upload: the
returning trace orders save before the model call and both deletions after
it. -/
theorem C9_endpoint_cleanup_witness :
    ([TDSSolver.Ev.saveTemp, .callGemini, .unlinkTemp, .rmtreeExtracted].indexOf
        TDSSolver.Ev.saveTemp <
      [TDSSolver.Ev.saveTemp, .callGemini, .unlinkTemp, .rmtreeExtracted].indexOf
        TDSSolver.Ev.callGemini) ∧
    ([TDSSolver.Ev.saveTemp, .callGemini, .unlinkTemp, .rmtreeExtracted].indexOf
        TDSSolver.Ev.callGemini <
      [TDSSolver.Ev.saveTemp, .callGemini, .unlinkTemp, .rmtreeExtracted].indexOf
        TDSSolver.Ev.unlinkTemp) ∧
    ([TDSSolver.Ev.saveTemp, .callGemini, .unlinkTemp, .rmtreeExtracted].indexOf
        TDSSolver.Ev.callGemini <
      [TDSSolver.Ev.saveTemp, .callGemini, .unlinkTemp, .rmtreeExtracted].indexOf
        TDSSolver.Ev.rmtreeExtracted) ∧
    TDSSolver.Ev.unlinkTemp ∈
      [TDSSolver.Ev.saveTemp, .callGemini, .unlinkTemp, .rmtreeExtracted] ∧
    TDSSolver.Ev.rmtreeExtracted ∈
      [TDSSolver.Ev.saveTemp, .callGemini, .unlinkTemp, .rmtreeExtracted] :=
  (C9_endpoint_cleanup true (.ok "42") _ "42" rfl).2
